import Mathlib

/-!
Verification development for the CEB donor-codes application.

The development shallowly embeds the three TypeScript source files
(`src/pages/DonorsListPage.tsx`, `src/components/search/SearchResults.tsx`,
`src/services/emailService.ts`) as executable Lean definitions and proves the
frozen specification claims about them.

Modelling conventions for JavaScript semantics:
* optional / possibly-`undefined` string fields become `Option String`;
  JavaScript truthiness of a string (`undefined`, `null` and `""` are falsy)
  becomes `truthyStr`, and `a || b` on strings becomes `jsOrString`;
* `String.prototype.trim` becomes `jsTrim` (dropping the common JavaScript
  whitespace characters from both ends);
* `new RegExp(pat, 'gi')` becomes `compileRegex`, a model of the JavaScript
  regular-expression compiler restricted to the literal-and-dot fragment:
  a pattern character `.` compiles to a wildcard atom, an ordinary character
  to a literal atom, the character `(` raises the compile error that the real
  JavaScript engine raises on an unterminated group (`new RegExp "("` throws
  a `SyntaxError`), and every other metacharacter is conservatively mapped to
  the `outsideModel` error because the modelled fragment does not cover it;
* `str.match(re)` used as a boolean (with the `i` flag) becomes `regexSearch`,
  case-insensitive via `Char.toLower`, with `.` not matching line terminators;
* `Array.prototype.sort(cmp)` becomes the stable structural sort `jsSortBy`;
* `a.localeCompare(b)` becomes `localeLe`, modelled as case-insensitive
  lexicographic comparison with a raw code-point tiebreak.
-/

deriving instance DecidableEq for Except

/-- JavaScript whitespace characters stripped by `String.prototype.trim`
(space, tab, line feed, carriage return, vertical tab, form feed,
no-break space, BOM). -/
def isJsWhitespace (c : Char) : Bool :=
  c == ' ' || c == '\t' || c == '\n' || c == '\r' ||
  c.toNat == 11 || c.toNat == 12 || c.toNat == 0xA0 || c.toNat == 0xFEFF

/-- Model of `String.prototype.trim`: drop whitespace from both ends. -/
def jsTrim (s : String) : String :=
  String.mk (((s.data.dropWhile isJsWhitespace).reverse.dropWhile
    isJsWhitespace).reverse)

/-- JavaScript truthiness of a possibly-absent string: `undefined` and the
empty string are falsy, every other string is truthy. -/
def truthyStr : Option String → Bool
  | none => false
  | some s => !s.data.isEmpty

/-- Model of the JavaScript expression `x || d` for a possibly-absent
string `x`: the fallback `d` is used when `x` is absent or empty. -/
def jsOrString : Option String → String → String
  | none, d => d
  | some s, d => if s.data.isEmpty then d else s

/-- A compiled regular-expression atom of the modelled fragment: a literal
character or the `.` wildcard. -/
inductive RAtom where
  | lit (c : Char)
  | anyChar
deriving DecidableEq

/-- Errors of the modelled regular-expression compiler. `invalidPattern`
marks patterns that the real JavaScript engine rejects with a `SyntaxError`
(a lone `(` is an unterminated group); `outsideModel` conservatively marks
metacharacters that the modelled literal-and-dot fragment does not cover. -/
inductive RegexError where
  | invalidPattern
  | outsideModel
deriving DecidableEq

/-- Regular-expression metacharacters other than `.` (which compiles to the
wildcard atom). -/
def regexMetaChars : List Char :=
  ['\\', '^', '$', '*', '+', '?', '(', ')', '[', ']', '\x7b', '\x7d', '|']

/-- Compile one pattern character of `new RegExp(pat, 'gi')`. -/
def compileRegexChar (c : Char) : Except RegexError RAtom :=
  if c == '.' then .ok .anyChar
  else if c == '(' then .error .invalidPattern
  else if regexMetaChars.contains c then .error .outsideModel
  else .ok (.lit c)

/-- Compile a whole pattern, failing on the first bad character. -/
def compileRegex : List Char → Except RegexError (List RAtom)
  | [] => .ok []
  | c :: cs =>
    match compileRegexChar c with
    | .error e => .error e
    | .ok a =>
      match compileRegex cs with
      | .error e => .error e
      | .ok as => .ok (a :: as)

/-- Case-insensitive match of one atom against one subject character
(the `i` flag lower-cases both sides; `.` does not match line terminators). -/
def atomMatch : RAtom → Char → Bool
  | .lit c, d => c.toLower == d.toLower
  | .anyChar, d =>
    !(d == '\n' || d == '\r' || d.toNat == 0x2028 || d.toNat == 0x2029)

/-- Does the atom list match a leading segment of the subject? -/
def matchHere : List RAtom → List Char → Bool
  | [], _ => true
  | _ :: _, [] => false
  | a :: pat, c :: cs => atomMatch a c && matchHere pat cs

/-- Does the atom list match anywhere in the subject?  This is the boolean
use of `str.match(re)` in the source (`null` result is falsy). -/
def regexSearch (pat : List RAtom) : List Char → Bool
  | [] => matchHere pat []
  | c :: cs => matchHere pat (c :: cs) || regexSearch pat cs

/-- Contributor-type descriptor resolved onto a donor
(`contributorTypeInfo` in `types/donor.ts`); both fields may be absent. -/
structure ContributorTypeInfo where
  NAME : Option String
  DEFINITION : Option String
deriving DecidableEq

/-- A donor record as consumed by the pages (`DonorWithType`).  The CSV
column names `CEB CODE` and `CONTRIBUTOR TYPE` become the field names
`cebCode` and `contributorType`; fields that the defensive code treats as
possibly missing are `Option String`. -/
structure DonorWithType where
  NAME : Option String
  cebCode : Option String
  contributorType : Option String
  contributorTypeInfo : Option ContributorTypeInfo
deriving DecidableEq

/-- Search statistics published per evaluation (`SearchStats` in
`searchService.ts`; the service itself is outside `src/`, the page only
reads these fields).  `searchType` is kept as its string value. -/
structure SearchStats where
  totalResults : Nat
  searchTime : ℚ
  searchType : String
  query : String
deriving DecidableEq

/-- One scored search result as consumed by the presentation layer
(`SearchResult` in `searchService.ts`). -/
structure SearchResult where
  item : DonorWithType
  score : Option ℚ
  highlightedName : Option String
  highlightedCode : Option String
deriving DecidableEq

/-- The `displayData` memo of `DonorsListPage.tsx` (lines 75–91): advanced
search shows the enhanced results' items; otherwise a non-empty trimmed
query runs the basic regex fallback (`new RegExp(query.trim(), 'gi')`,
which can fail to compile — the `Except` carries that fault), filtering
out donors with a missing or empty `NAME` or `CEB CODE`; an empty query
shows all donors.  The `!donor` null check of the source is vacuous here
because list elements are records. -/
def displayData (query : String) (useAdvancedSearch : Bool)
    (results : List SearchResult) (donorsWithTypes : List DonorWithType) :
    Except RegexError (List DonorWithType) :=
  if truthyStr (some (jsTrim query)) && useAdvancedSearch then
    .ok (results.map (fun r => r.item))
  else if truthyStr (some (jsTrim query)) then
    match compileRegex (jsTrim query).data with
    | .error e => .error e
    | .ok pat =>
      .ok (donorsWithTypes.filter (fun donor =>
        if !(truthyStr donor.NAME) || !(truthyStr donor.cebCode) then false
        else regexSearch pat (jsOrString donor.NAME "").data ||
          regexSearch pat (jsOrString donor.cebCode "").data))
  else
    .ok donorsWithTypes

/-- Lexicographic order on character lists by code point (`true` when the
first list is less than or equal to the second). -/
def lexLe : List Char → List Char → Bool
  | [], _ => true
  | _ :: _, [] => false
  | a :: as, b :: bs =>
    if a.toNat < b.toNat then true
    else if b.toNat < a.toNat then false
    else lexLe as bs

/-- Model of `a.localeCompare(b) <= 0`: case-insensitive lexicographic
comparison of the lower-cased code points, with the raw code points as
tiebreak (a simple total collation standing in for the locale one). -/
def localeLe (x y : String) : Bool :=
  if x.data.map Char.toLower = y.data.map Char.toLower then
    lexLe x.data y.data
  else
    lexLe (x.data.map Char.toLower) (y.data.map Char.toLower)

/-- The sort key of `sortedData`: `a?.NAME || ''`. -/
def donorNameKey (d : DonorWithType) : String :=
  jsOrString d.NAME ""

/-- The comparator of `sortedData` (NAME against NAME via `localeCompare`). -/
def donorNameLe (a b : DonorWithType) : Bool :=
  localeLe (donorNameKey a) (donorNameKey b)

/-- Stable insertion into a sorted list (the inserted element goes before
elements it ties with only when the comparator says so from the left). -/
def insertSorted (le : DonorWithType → DonorWithType → Bool)
    (a : DonorWithType) : List DonorWithType → List DonorWithType
  | [] => [a]
  | b :: bs => if le a b then a :: b :: bs else b :: insertSorted le a bs

/-- Model of `[...l].sort(cmp)` for a consistent comparator: a stable
structural sort. -/
def jsSortBy (le : DonorWithType → DonorWithType → Bool) :
    List DonorWithType → List DonorWithType
  | [] => []
  | a :: as => insertSorted le a (jsSortBy le as)

/-- The `sortedData` memo of `DonorsListPage.tsx` (lines 94–101): the
display data re-sorted by name via `localeCompare` on `a?.NAME || ''`. -/
def sortedData (l : List DonorWithType) : List DonorWithType :=
  jsSortBy donorNameLe l

/-- What the `SearchResults` component renders after its early returns
(`SearchResults.tsx`): the searching spinner, an informational alert with a
message, or the results table with its statistics header and the current
page of results. -/
inductive SearchResultsView where
  | searching
  | infoAlert (message : String)
  | resultsTable (stats : SearchStats) (rows : List SearchResult)
deriving DecidableEq

/-- The alert message shown when no search has been performed yet
(`stats` is `null`). -/
def enterSearchTermMessage : String :=
  "Enter a search term to find donors"

/-- The alert message shown when a search produced an empty result list. -/
def noResultsMessage : String :=
  "No results found for your search."

/-- The render function of `SearchResults.tsx` (lines 104–283): a spinner
while searching; otherwise, when `stats` is `null` or the result list is
empty, one informational alert whose message distinguishes the two cases
(lines 115–121); otherwise the results table with the current page. -/
def renderSearchResults (isSearching : Bool) (stats : Option SearchStats)
    (results : List SearchResult) (showPagination : Bool)
    (itemsPerPage currentPage : Nat) : SearchResultsView :=
  if isSearching then .searching
  else if stats.isNone || results.length == 0 then
    .infoAlert (if stats.isNone then enterSearchTermMessage else noResultsMessage)
  else
    .resultsTable (stats.getD ⟨0, 0, "", ""⟩)
      (if showPagination then
        (results.drop ((currentPage - 1) * itemsPerPage)).take itemsPerPage
      else results)

/-- The filter state owned by `useSearch` and updated by the quick-filter
chips of `DonorsListPage.tsx` (`SearchFilters` of `searchService.ts`). -/
structure SearchFilters where
  governmentOnly : Bool
  nonGovernmentOnly : Bool
  contributorTypes : List String
deriving DecidableEq

/-- The `onClick` handler of the Government chip (`DonorsListPage.tsx`
lines 260–263): toggle `governmentOnly`, force `nonGovernmentOnly` off.
The handler passes only these two fields to `setFilters`; `setFilters`
merges them into the current filter state, so `contributorTypes` is kept. -/
def toggleGovernmentFilter (f : SearchFilters) : SearchFilters :=
  { f with governmentOnly := !f.governmentOnly, nonGovernmentOnly := false }

/-- The `onClick` handler of the Non-Government chip (`DonorsListPage.tsx`
lines 271–274): toggle `nonGovernmentOnly`, force `governmentOnly` off. -/
def toggleNonGovernmentFilter (f : SearchFilters) : SearchFilters :=
  { f with nonGovernmentOnly := !f.nonGovernmentOnly, governmentOnly := false }

/-- The `onClick` handler of the Clear-Filters chip (`DonorsListPage.tsx`
lines 283–287): reset every filter. -/
def clearAllFilters (_f : SearchFilters) : SearchFilters :=
  { governmentOnly := false, nonGovernmentOnly := false, contributorTypes := [] }

/-- The `getTypeDisplayName` helper, identical in `DonorsListPage.tsx`
(lines 119–122) and `SearchResults.tsx` (lines 58–61):
`donor.contributorTypeInfo?.NAME || 'Unknown'`. -/
def getTypeDisplayName (donor : DonorWithType) : String :=
  jsOrString (donor.contributorTypeInfo.bind (fun i => i.NAME)) "Unknown"

/-- The action of a donor request (`types/request.ts`, outside `src/`;
the three values are the ones `emailService.ts` distinguishes). -/
inductive RequestAction where
  | add
  | update
  | remove
deriving DecidableEq

/-- A donor request restricted to the fields that the modelled parts of
`emailService.ts` read (`DonorRequest` of `types/request.ts`, outside
`src/`; the remaining fields only flow into the free-text e-mail body). -/
structure DonorRequest where
  action : RequestAction
  entityName : String
  customCode : Option String
  suggestedCode : String
  contributorType : String
deriving DecidableEq

/-- The fixed chunk size of `emailService.ts` (`CHUNK_SIZE`): 15 requests
per e-mail batch. -/
def CHUNK_SIZE : Nat := 15

/-- The result record returned by the submission pipeline
(`EmailSubmissionResult` of `emailService.ts`); fields that the source
leaves `undefined` on some paths are `Option`s. -/
structure EmailSubmissionResult where
  success : Bool
  submissionId : Option String
  error : Option String
  totalBatches : Option Nat
  successfulBatches : Option Nat
  failedBatches : Option Nat
  batchErrors : Option (List String)
deriving DecidableEq

/-- The `splitIntoChunks` method of `emailService.ts` (lines 121–131): the
source loop runs `i = 0, CHUNK_SIZE, 2·CHUNK_SIZE, …` while `i < length`
and pushes `requests.slice(i, i + CHUNK_SIZE)`; the iteration for chunk
index `k` starts at `i = k · CHUNK_SIZE`, and the loop performs
`⌈length / CHUNK_SIZE⌉` iterations, so an empty request list yields no
chunks. -/
def splitIntoChunks (requests : List DonorRequest) :
    List (List DonorRequest) :=
  (List.range ((requests.length + CHUNK_SIZE - 1) / CHUNK_SIZE)).map
    (fun k => (requests.drop (k * CHUNK_SIZE)).take CHUNK_SIZE)

/-- The `sendSingleBatch` method of `emailService.ts` (lines 136–194).
The actual transport (`emailjs.send`) performs network I/O; its outcome is the
parameter `outcome` (`none` = the send resolved, `some errText` = it
rejected with the given EmailJS error text).  On success the method
reports one successful batch; on failure it reports one failed batch with
the formatted batch error. -/
def sendSingleBatch (outcome : Option String) (submissionId : String)
    (batchNumber totalBatches : Nat) : EmailSubmissionResult :=
  match outcome with
  | none =>
    { success := true
      submissionId := some submissionId
      error := none
      totalBatches := some totalBatches
      successfulBatches := some 1
      failedBatches := some 0
      batchErrors := none }
  | some errText =>
    { success := false
      submissionId := none
      error := some (s!"Batch {batchNumber}/{totalBatches} failed: {errText}")
      totalBatches := some totalBatches
      successfulBatches := some 0
      failedBatches := some 1
      batchErrors := some [errText] }

/-- The loop body of `sendMultipleBatches` (lines 209–229): send each chunk
in order (batch numbers counted from `i + 1`), tallying successful and
failed batches and collecting the per-batch error strings of the failed
sends.  `outcomes k` is the transport outcome of the `k`-th send. -/
def runBatches (outcomes : Nat → Option String) (submissionId : String)
    (total : Nat) : List (List DonorRequest) → Nat → Nat × Nat × List String
  | [], _ => (0, 0, [])
  | _ :: rest, i =>
    let result := sendSingleBatch (outcomes i) submissionId (i + 1) total
    let tally := runBatches outcomes submissionId total rest (i + 1)
    if result.success then
      (tally.1 + 1, tally.2.1, tally.2.2)
    else
      (tally.1, tally.2.1 + 1,
        match result.error with
        | some e => e :: tally.2.2
        | none => tally.2.2)

/-- The `sendMultipleBatches` method of `emailService.ts` (lines 200–245):
run every chunk, then report overall success exactly when no batch failed,
with the aggregate error message and the collected batch errors (left
`undefined` when empty). -/
def sendMultipleBatches (outcomes : Nat → Option String)
    (submissionId : String) (chunks : List (List DonorRequest)) :
    EmailSubmissionResult :=
  let totalBatches := chunks.length
  let tally := runBatches outcomes submissionId totalBatches chunks 0
  let successfulBatches := tally.1
  let failedBatches := tally.2.1
  let batchErrors := tally.2.2
  let allSuccessful := failedBatches == 0
  { success := allSuccessful
    submissionId := some submissionId
    error :=
      if allSuccessful then none
      else some (s!"{failedBatches} of {totalBatches} batch(es) failed to send")
    totalBatches := some totalBatches
    successfulBatches := some successfulBatches
    failedBatches := some failedBatches
    batchErrors := if batchErrors.length > 0 then some batchErrors else none }

/-- The chunking decision of `submitRequests` (lines 78–87): at most
`CHUNK_SIZE` requests go out as one batch, more are split into chunks and
sent via `sendMultipleBatches`. -/
def submitRequests (outcomes : Nat → Option String) (submissionId : String)
    (requests : List DonorRequest) : EmailSubmissionResult :=
  if requests.length ≤ CHUNK_SIZE then
    sendSingleBatch (outcomes 0) submissionId 1 1
  else
    sendMultipleBatches outcomes submissionId (splitIntoChunks requests)

/-- The `getTypeFromContributorType` method of `emailService.ts`
(lines 373–376): `C01` (Government) maps to `"1"`, everything else to
`"0"`. -/
def getTypeFromContributorType (contributorType : String) : String :=
  if contributorType == "C01" then "1" else "0"

/-- One CSV line of `formatCsvSnippets` (lines 352–365): the entity name —
wrapped in double quotes exactly when it contains a comma, with no other
escaping — then the type flag, the effective code (`customCode ||
suggestedCode`) and the contributor type, comma-separated. -/
def csvLineFor (req : DonorRequest) : String :=
  let name := req.entityName
  let ty := getTypeFromContributorType req.contributorType
  let code := jsOrString req.customCode req.suggestedCode
  let escapedName :=
    if name.data.contains ',' then "\"" ++ name ++ "\"" else name
  escapedName ++ "," ++ ty ++ "," ++ code ++ "," ++ req.contributorType

/-- The numbered CSV lines of `formatCsvSnippets`: `"{i}. {csvLine}"` with
`i` counted from 1. -/
def numberedCsvLines (i : Nat) : List DonorRequest → List String
  | [] => []
  | req :: rest => s!"{i}. {csvLineFor req}" :: numberedCsvLines (i + 1) rest

/-- The fixed header lines of the CSV section of the e-mail body. -/
def csvHeaderLines : List String :=
  ["CSV DATABASE ENTRIES FOR NEW REQUESTS:",
   "=======================================",
   "Copy and paste the lines below into DONORS.csv",
   "",
   "CSV Format: NAME,TYPE,CEB CODE,CONTRIBUTOR TYPE",
   ""]

/-- The fixed message emitted when there are no new requests. -/
def noCsvEntriesMessage : String :=
  "No new requests requiring CSV database entries."

/-- The `formatCsvSnippets` method of `emailService.ts` (lines 339–368). -/
def formatCsvSnippets (newRequests : List DonorRequest) : String :=
  if newRequests.isEmpty then noCsvEntriesMessage
  else
    String.intercalate "\n" (csvHeaderLines ++ numberedCsvLines 1 newRequests)

/-- Does the first character list lead (start) the second one?  Helper for
the literal-substring contract. -/
def leadsWith : List Char → List Char → Bool
  | [], _ => true
  | _ :: _, [] => false
  | a :: as, b :: bs => a == b && leadsWith as bs

/-- Does the first character list occur contiguously inside the second? -/
def containsSub (needle : List Char) : List Char → Bool
  | [] => needle.isEmpty
  | c :: t => leadsWith needle (c :: t) || containsSub needle t

/-- Modelled from the spec: the Partial matcher's contract applied as the
basic search (`isMatch = normalize(fieldValue).contains(normalize(query))`
with case-insensitive normalization and a trimmed query, records missing
their name or code field skipped).  The repository's `searchService.ts` is
not under `src/`; this definition follows the spec's words and is compared
against the presentation-layer code path `displayData`. -/
def literalSubstringSearch (query : String) (donors : List DonorWithType) :
    List DonorWithType :=
  donors.filter (fun d =>
    truthyStr d.NAME && truthyStr d.cebCode &&
    (containsSub ((jsTrim query).data.map Char.toLower)
        ((jsOrString d.NAME "").data.map Char.toLower) ||
     containsSub ((jsTrim query).data.map Char.toLower)
        ((jsOrString d.cebCode "").data.map Char.toLower)))

/-- The score that a published result list associates with a donor (used to
state ordering claims about the displayed list). -/
def resultScore (results : List SearchResult) (d : DonorWithType) :
    Option ℚ :=
  (results.find? (fun r => r.item == d)).bind (fun r => r.score)

/-- Demo donor: United Nations. -/
def demoDonorUN : DonorWithType :=
  ⟨some "United Nations", some "UN01", some "C01", none⟩

/-- Demo donor whose name and code avoid the letter sequence of the demo
queries. -/
def demoDonorAB : DonorWithType :=
  ⟨some "AB", some "XY", none, none⟩

/-- Demo defective donor: its `NAME` field is missing. -/
def demoDonorNoName : DonorWithType :=
  ⟨none, some "ZZ", none, none⟩

/-- Demo donor with a name late in the alphabet. -/
def demoDonorZebra : DonorWithType :=
  ⟨some "Zebra", some "ZB01", none, none⟩

/-- Demo donor with a name early in the alphabet. -/
def demoDonorApple : DonorWithType :=
  ⟨some "Apple", some "AP01", none, none⟩

/-- Demo scored results: Zebra scores 1, Apple scores 1/2. -/
def demoScoredResults : List SearchResult :=
  [⟨demoDonorZebra, some 1, none, none⟩,
   ⟨demoDonorApple, some (1/2), none, none⟩]

/-- Demo donor carrying a resolved contributor-type name. -/
def demoDonorGov : DonorWithType :=
  ⟨some "France", some "FR01", some "C01", some ⟨some "Government", none⟩⟩

/-- Demo donor whose resolved contributor-type name is the empty string. -/
def demoDonorEmptyTypeName : DonorWithType :=
  ⟨some "Niue", some "NU01", some "C01", some ⟨some "", none⟩⟩

/-- Demo request whose entity name contains a comma. -/
def demoReqComma : DonorRequest :=
  ⟨.add, "Acme, Inc", none, "AC01", "C01"⟩

/-- Demo request with a custom code and a non-government type. -/
def demoReqPlain : DonorRequest :=
  ⟨.add, "Beta", some "BB02", "B01", "C05"⟩

/-- Demo list of 16 identical requests (one more than `CHUNK_SIZE`). -/
def demoRequests16 : List DonorRequest :=
  (List.range 16).map (fun _ => demoReqPlain)

/-- Demo transport outcomes: the second send fails, the rest succeed. -/
def demoOutcomes : Nat → Option String :=
  fun n => if n == 1 then some "boom" else none

/-- Demo search statistics record. -/
def demoStats : SearchStats :=
  ⟨0, 0, "fuzzy", "demo"⟩

theorem string_eq_empty_of_data_nil {s : String} (h : s.data = []) :
    s = "" := by
  cases s with
  | mk data => cases h; rfl

theorem truthyStr_some_of_ne {s : String} (h : s ≠ "") :
    truthyStr (some s) = true := by
  simp only [truthyStr]
  cases hd : s.data with
  | nil => exact absurd (string_eq_empty_of_data_nil hd) h
  | cons c cs => simp [List.isEmpty]

theorem lexLe_total (x y : List Char) :
    lexLe x y = true ∨ lexLe y x = true := by
  induction x generalizing y with
  | nil => left; simp [lexLe]
  | cons a as ih =>
    cases y with
    | nil => right; simp [lexLe]
    | cons b bs =>
      by_cases hab : a.toNat < b.toNat
      · left; simp [lexLe, hab]
      · by_cases hba : b.toNat < a.toNat
        · right; simp [lexLe, hba]
        · rcases ih bs with h | h
          · left; simp [lexLe, hab, hba, h]
          · right; simp [lexLe, hab, hba, h]

theorem lexLe_trans {x y z : List Char} (h1 : lexLe x y = true)
    (h2 : lexLe y z = true) : lexLe x z = true := by
  induction x generalizing y z with
  | nil => simp [lexLe]
  | cons a as ih =>
    cases y with
    | nil => simp [lexLe] at h1
    | cons b bs =>
      cases z with
      | nil => simp [lexLe] at h2
      | cons c cs =>
        simp only [lexLe] at h1 h2 ⊢
        by_cases hab : a.toNat < b.toNat
        · by_cases hbc : b.toNat < c.toNat
          · simp [show a.toNat < c.toNat by omega]
          · by_cases hcb : c.toNat < b.toNat
            · simp [hbc, hcb] at h2
            · simp [show a.toNat < c.toNat by omega]
        · by_cases hba : b.toNat < a.toNat
          · simp [hab, hba] at h1
          · by_cases hbc : b.toNat < c.toNat
            · simp [show a.toNat < c.toNat by omega]
            · by_cases hcb : c.toNat < b.toNat
              · simp [hbc, hcb] at h2
              · simp [hab, hba] at h1
                simp [hbc, hcb] at h2
                simp [show ¬a.toNat < c.toNat by omega,
                  show ¬c.toNat < a.toNat by omega]
                exact ih h1 h2

theorem lexLe_antisymm {x y : List Char} (h1 : lexLe x y = true)
    (h2 : lexLe y x = true) : x = y := by
  induction x generalizing y with
  | nil =>
    cases y with
    | nil => rfl
    | cons b bs => simp [lexLe] at h2
  | cons a as ih =>
    cases y with
    | nil => simp [lexLe] at h1
    | cons b bs =>
      simp only [lexLe] at h1 h2
      by_cases hab : a.toNat < b.toNat
      · simp [show ¬b.toNat < a.toNat by omega, hab] at h2
      · by_cases hba : b.toNat < a.toNat
        · simp [hab, hba] at h1
        · have hn : a.toNat = b.toNat := by omega
          have hh : a = b := Char.ext (UInt32.ext hn)
          simp [hab, hba] at h1 h2
          rw [hh, ih h1 h2]

theorem localeLe_total (x y : String) :
    localeLe x y = true ∨ localeLe y x = true := by
  unfold localeLe
  by_cases h : x.data.map Char.toLower = y.data.map Char.toLower
  · rw [if_pos h, if_pos h.symm]
    exact lexLe_total x.data y.data
  · have h' : ¬y.data.map Char.toLower = x.data.map Char.toLower :=
      fun hh => h hh.symm
    rw [if_neg h, if_neg h']
    exact lexLe_total _ _

theorem localeLe_trans {x y z : String} (h1 : localeLe x y = true)
    (h2 : localeLe y z = true) : localeLe x z = true := by
  unfold localeLe at h1 h2 ⊢
  by_cases hxy : x.data.map Char.toLower = y.data.map Char.toLower
  · by_cases hyz : y.data.map Char.toLower = z.data.map Char.toLower
    · have hxz : x.data.map Char.toLower = z.data.map Char.toLower :=
        hxy.trans hyz
      simp only [if_pos hxy, if_pos hyz, if_pos hxz] at h1 h2 ⊢
      exact lexLe_trans h1 h2
    · have hxz : ¬x.data.map Char.toLower = z.data.map Char.toLower := by
        rw [hxy]; exact hyz
      simp only [if_pos hxy, if_neg hyz, if_neg hxz] at h1 h2 ⊢
      rw [hxy]; exact h2
  · by_cases hyz : y.data.map Char.toLower = z.data.map Char.toLower
    · have hxz : ¬x.data.map Char.toLower = z.data.map Char.toLower := by
        rw [← hyz]; exact hxy
      simp only [if_neg hxy, if_pos hyz, if_neg hxz] at h1 h2 ⊢
      rw [← hyz]; exact h1
    · by_cases hxz : x.data.map Char.toLower = z.data.map Char.toLower
      · exfalso
        apply hxy
        simp only [if_neg hxy, if_neg hyz] at h1 h2
        rw [← hxz] at h2
        exact lexLe_antisymm h1 h2
      · simp only [if_neg hxy, if_neg hyz, if_neg hxz] at h1 h2 ⊢
        exact lexLe_trans h1 h2

theorem donorNameLe_total (a b : DonorWithType) :
    donorNameLe a b = true ∨ donorNameLe b a = true :=
  localeLe_total (donorNameKey a) (donorNameKey b)

theorem donorNameLe_trans {a b c : DonorWithType}
    (h1 : donorNameLe a b = true) (h2 : donorNameLe b c = true) :
    donorNameLe a c = true :=
  localeLe_trans h1 h2

theorem insertSorted_perm (le : DonorWithType → DonorWithType → Bool)
    (a : DonorWithType) (l : List DonorWithType) :
    (insertSorted le a l).Perm (a :: l) := by
  induction l with
  | nil => simp [insertSorted]
  | cons b bs ih =>
    simp only [insertSorted]
    by_cases h : le a b
    · simp [h]
    · rw [if_neg h]
      exact (ih.cons b).trans (List.Perm.swap a b bs)

theorem jsSortBy_perm (le : DonorWithType → DonorWithType → Bool)
    (l : List DonorWithType) : (jsSortBy le l).Perm l := by
  induction l with
  | nil => simp [jsSortBy]
  | cons a as ih =>
    simp only [jsSortBy]
    exact (insertSorted_perm le a (jsSortBy le as)).trans (ih.cons a)

theorem insertSorted_pairwise (le : DonorWithType → DonorWithType → Bool)
    (htot : ∀ p q, le p q = true ∨ le q p = true)
    (htrans : ∀ {p q r}, le p q = true → le q r = true → le p r = true)
    (a : DonorWithType) {l : List DonorWithType}
    (hl : l.Pairwise (fun p q => le p q = true)) :
    (insertSorted le a l).Pairwise (fun p q => le p q = true) := by
  induction l with
  | nil => simp [insertSorted]
  | cons b bs ih =>
    rcases List.pairwise_cons.mp hl with ⟨hb, hbs⟩
    simp only [insertSorted]
    by_cases h : le a b
    · rw [if_pos h]
      apply List.pairwise_cons.mpr
      refine ⟨?_, hl⟩
      intro x hx
      rcases List.mem_cons.mp hx with hx | hx
      · rw [hx]; exact h
      · exact htrans h (hb x hx)
    · rw [if_neg h]
      apply List.pairwise_cons.mpr
      refine ⟨?_, ih hbs⟩
      intro x hx
      have hmem := (insertSorted_perm le a bs).mem_iff.mp hx
      rcases List.mem_cons.mp hmem with hx' | hx'
      · rw [hx']
        rcases htot a b with h' | h'
        · exact absurd h' h
        · exact h'
      · exact hb x hx'

theorem jsSortBy_pairwise (le : DonorWithType → DonorWithType → Bool)
    (htot : ∀ p q, le p q = true ∨ le q p = true)
    (htrans : ∀ {p q r}, le p q = true → le q r = true → le p r = true)
    (l : List DonorWithType) :
    (jsSortBy le l).Pairwise (fun p q => le p q = true) := by
  induction l with
  | nil => simp [jsSortBy]
  | cons a as ih =>
    simp only [jsSortBy]
    exact insertSorted_pairwise le htot htrans a ih

theorem data_isEmpty_eq_false {s : String} (h : s ≠ "") :
    s.data.isEmpty = false := by
  cases hd : s.data with
  | nil => exact absurd (string_eq_empty_of_data_nil hd) h
  | cons c cs => rfl

/-- C1: the claim says the basic (non-advanced) search path is defined and
non-throwing for every query string; the code instead builds
`new RegExp(query.trim(), 'gi')` from the raw query, and the JavaScript
regular-expression compiler rejects the query `"("` (unterminated group)
with a `SyntaxError` that nothing catches.  The embedded basic path
evaluates to that compile fault at the query `"("`. -/
theorem basicSearch_faults_on_unterminated_group :
    displayData "(" false [] [] = .error .invalidPattern := by decide

/-- C2 counterexample: the displayed list is not ordered by descending
score.  With published results scoring Zebra 1 and Apple 1/2, the display
pipeline re-sorts by name, so Apple (score 1/2) is displayed before Zebra
(score 1): a strictly higher-scored result appears after a lower-scored
one. -/
theorem displayedOrder_ignores_score :
    displayData "z" true demoScoredResults [] =
      .ok [demoDonorZebra, demoDonorApple] ∧
    sortedData [demoDonorZebra, demoDonorApple] =
      [demoDonorApple, demoDonorZebra] ∧
    resultScore demoScoredResults demoDonorApple = some (1/2) ∧
    resultScore demoScoredResults demoDonorZebra = some 1 ∧
    (1 : ℚ)/2 < 1 :=
  ⟨by decide, by decide, rfl, rfl, by norm_num⟩

/-- C2 (amended): the displayed list is always the permutation of the
display data sorted by ascending name under the `localeCompare` model,
regardless of any scores; and for an empty query the display data is the
whole (filtered) record set, which is therefore shown alphabetically by
name. -/
theorem sortedData_name_sorted_perm :
    (∀ l : List DonorWithType,
      (sortedData l).Perm l ∧
      (sortedData l).Pairwise (fun a b => donorNameLe a b = true)) ∧
    (∀ (u : Bool) (results : List SearchResult)
      (donors : List DonorWithType),
      displayData "" u results donors = .ok donors) := by
  constructor
  · intro l
    refine ⟨jsSortBy_perm _ l, ?_⟩
    exact jsSortBy_pairwise donorNameLe donorNameLe_total
      (fun h1 h2 => donorNameLe_trans h1 h2) l
  · intro u results donors
    rfl

/-- C3: the no-query state and the no-matches state render distinct
messages: with `stats = null` the component shows the enter-a-search-term
alert for every result list, and with `stats` present and an empty result
list it shows the no-results alert; the two messages differ. -/
theorem renderSearchResults_distinct_empty_states :
    (∀ (rs : List SearchResult) (sp : Bool) (ipp page : Nat),
      renderSearchResults false none rs sp ipp page =
        .infoAlert enterSearchTermMessage) ∧
    (∀ (st : SearchStats) (sp : Bool) (ipp page : Nat),
      renderSearchResults false (some st) [] sp ipp page =
        .infoAlert noResultsMessage) ∧
    (enterSearchTermMessage == noResultsMessage) = false := by
  refine ⟨fun rs sp ipp page => ?_, fun st sp ipp page => ?_, by decide⟩
  · simp [renderSearchResults]
  · simp [renderSearchResults]

/-- C5: the quick-filter handlers keep `governmentOnly` and
`nonGovernmentOnly` mutually exclusive: toggling Government always leaves
`nonGovernmentOnly` false (so enabling it clears the other), toggling
Non-Government always leaves `governmentOnly` false, clearing resets both,
and after any of the three operations the two flags are never both true. -/
theorem filterChips_mutually_exclusive :
    ∀ f : SearchFilters,
      (toggleGovernmentFilter f).governmentOnly = !f.governmentOnly ∧
      (toggleGovernmentFilter f).nonGovernmentOnly = false ∧
      (toggleNonGovernmentFilter f).nonGovernmentOnly =
        !f.nonGovernmentOnly ∧
      (toggleNonGovernmentFilter f).governmentOnly = false ∧
      (clearAllFilters f).governmentOnly = false ∧
      (clearAllFilters f).nonGovernmentOnly = false ∧
      ((toggleGovernmentFilter f).governmentOnly &&
        (toggleGovernmentFilter f).nonGovernmentOnly) = false ∧
      ((toggleNonGovernmentFilter f).governmentOnly &&
        (toggleNonGovernmentFilter f).nonGovernmentOnly) = false ∧
      ((clearAllFilters f).governmentOnly &&
        (clearAllFilters f).nonGovernmentOnly) = false := by
  intro f
  simp [toggleGovernmentFilter, toggleNonGovernmentFilter, clearAllFilters]

/-- C6: every donor returned by the basic search filter has a present
(defined, non-empty) `NAME` and a present `CEB CODE`; records missing
either field are skipped by the defensive check and never appear as
matches. -/
theorem basicSearch_skips_defective_records :
    ∀ (query : String) (results : List SearchResult)
      (donors l : List DonorWithType) (d : DonorWithType),
      jsTrim query ≠ "" →
      displayData query false results donors = .ok l →
      d ∈ l →
      truthyStr d.NAME = true ∧ truthyStr d.cebCode = true := by
  intro query results donors l d hq hok hd
  have ht : truthyStr (some (jsTrim query)) = true := truthyStr_some_of_ne hq
  unfold displayData at hok
  rw [ht] at hok
  simp only [Bool.and_false, if_false, if_true, Bool.false_eq_true] at hok
  cases hc : compileRegex (jsTrim query).data with
  | error e => rw [hc] at hok; exact absurd hok (by simp)
  | ok pat =>
    rw [hc] at hok
    have hl := Except.ok.inj hok
    rw [← hl] at hd
    have hp := List.of_mem_filter hd
    by_cases h1 : truthyStr d.NAME = true
    · by_cases h2 : truthyStr d.cebCode = true
      · exact ⟨h1, h2⟩
      · simp [h1, h2] at hp
    · simp [h1] at hp

/-- Witness for C6: instantiating the theorem at the query `"un"` over a
catalog holding one well-formed donor and one donor with a missing name;
the single returned match has a present name and code. -/
theorem basicSearch_skips_defective_records_witness :
    truthyStr demoDonorUN.NAME = true ∧
    truthyStr demoDonorUN.cebCode = true :=
  basicSearch_skips_defective_records "un" [] [demoDonorUN, demoDonorNoName]
    [demoDonorUN] demoDonorUN (by decide) (by decide) (by decide)

/-- C8: the displayed contributor-type name falls back to `"Unknown"`
exactly when the resolved descriptor is absent or its `NAME` is absent or
empty; a present (defined, non-empty) `NAME` is displayed unchanged. -/
theorem getTypeDisplayName_spec :
    (∀ d : DonorWithType, d.contributorTypeInfo = none →
      getTypeDisplayName d = "Unknown") ∧
    (∀ (d : DonorWithType) (i : ContributorTypeInfo),
      d.contributorTypeInfo = some i → i.NAME = none →
      getTypeDisplayName d = "Unknown") ∧
    (∀ (d : DonorWithType) (i : ContributorTypeInfo),
      d.contributorTypeInfo = some i → i.NAME = some "" →
      getTypeDisplayName d = "Unknown") ∧
    (∀ (d : DonorWithType) (i : ContributorTypeInfo) (s : String),
      d.contributorTypeInfo = some i → i.NAME = some s → s ≠ "" →
      getTypeDisplayName d = s) := by
  refine ⟨?_, ?_, ?_, ?_⟩
  · intro d h
    simp [getTypeDisplayName, h, jsOrString]
  · intro d i h hn
    simp [getTypeDisplayName, h, hn, jsOrString]
  · intro d i h hn
    simp [getTypeDisplayName, h, hn, jsOrString]
  · intro d i s h hn hs
    simp [getTypeDisplayName, h, hn, jsOrString, data_isEmpty_eq_false hs]

/-- Witness for C8: a resolved name `"Government"` is displayed unchanged,
an empty resolved name and a missing descriptor both display `"Unknown"`. -/
theorem getTypeDisplayName_spec_witness :
    getTypeDisplayName demoDonorGov = "Government" ∧
    getTypeDisplayName demoDonorEmptyTypeName = "Unknown" ∧
    getTypeDisplayName demoDonorAB = "Unknown" :=
  ⟨getTypeDisplayName_spec.2.2.2 demoDonorGov ⟨some "Government", none⟩
      "Government" rfl rfl (by decide),
   getTypeDisplayName_spec.2.2.1 demoDonorEmptyTypeName ⟨some "", none⟩
      rfl rfl,
   getTypeDisplayName_spec.1 demoDonorAB rfl⟩

theorem compileRegex_all_lit {cs : List Char}
    (h : ∀ c ∈ cs, c ≠ '.' ∧ regexMetaChars.contains c = false) :
    compileRegex cs = .ok (cs.map RAtom.lit) := by
  induction cs with
  | nil => rfl
  | cons c cs ih =>
    rcases h c (List.mem_cons_self c cs) with ⟨hdot, hmeta⟩
    have hpar : c ≠ '(' := by
      intro hcc
      rw [hcc] at hmeta
      exact absurd hmeta (by decide)
    simp only [compileRegex, compileRegexChar, beq_iff_eq, if_neg hdot,
      if_neg hpar, hmeta, Bool.false_eq_true, if_false,
      ih (fun c hc => h c (List.mem_cons_of_mem _ hc))]
    rfl

theorem matchHere_lit (q : List Char) : ∀ s : List Char,
    matchHere (q.map RAtom.lit) s =
      leadsWith (q.map Char.toLower) (s.map Char.toLower) := by
  induction q with
  | nil => intro s; cases s <;> rfl
  | cons c q ih =>
    intro s
    cases s with
    | nil => rfl
    | cons d s =>
      simp only [List.map, matchHere, atomMatch, leadsWith, ih]

theorem regexSearch_lit (q : List Char) : ∀ s : List Char,
    regexSearch (q.map RAtom.lit) s =
      containsSub (q.map Char.toLower) (s.map Char.toLower) := by
  intro s
  induction s with
  | nil => cases q <;> rfl
  | cons d s ih =>
    simp only [regexSearch, List.map, containsSub, ih, matchHere_lit]

/-- C4 counterexample: the basic path's regex semantics are not the Partial
matcher's literal-substring semantics.  At the query `"."` the basic regex
fallback matches the donor named `"AB"` (`.` is a wildcard), while the
literal-substring contract matches nothing, since `"."` occurs literally in
neither the name nor the code; so the regex path is a genuinely different,
parallel matching semantics, not a restatement of the Partial contract. -/
theorem basicSearch_wildcard_not_literal :
    displayData "." false [] [demoDonorAB] = .ok [demoDonorAB] ∧
    literalSubstringSearch "." [demoDonorAB] = [] :=
  ⟨by decide, by decide⟩

/-- C4 (amended): the regex fallback is kept as its own code path and
coincides with the Partial matcher's literal-substring contract only on
queries free of regular-expression metacharacters: for every query whose
trimmed form is non-empty and contains neither `.` nor any other
metacharacter, the basic path returns exactly the records with present
name and code whose lower-cased name or code contains the lower-cased
trimmed query as a literal substring. -/
theorem basicSearch_literal_matches_substring_contract :
    ∀ (query : String) (results : List SearchResult)
      (donors : List DonorWithType),
      jsTrim query ≠ "" →
      (∀ c ∈ (jsTrim query).data,
        c ≠ '.' ∧ regexMetaChars.contains c = false) →
      displayData query false results donors =
        .ok (literalSubstringSearch query donors) := by
  intro query results donors hq hsafe
  have ht := truthyStr_some_of_ne hq
  unfold displayData
  rw [ht]
  simp only [Bool.and_false, Bool.false_eq_true, if_false, if_true]
  rw [compileRegex_all_lit hsafe]
  unfold literalSubstringSearch
  refine congrArg Except.ok ?_
  apply List.filter_congr
  intro d _
  by_cases h1 : truthyStr d.NAME = true
  · by_cases h2 : truthyStr d.cebCode = true
    · simp [h1, h2, regexSearch_lit]
    · simp [h1, h2]
  · simp [h1]

/-- Witness for C4 (amended): the metacharacter-free query `"un"` produces
the same single match through the regex fallback and through the
literal-substring contract. -/
theorem basicSearch_literal_matches_substring_contract_witness :
    displayData "un" false [] [demoDonorUN, demoDonorAB, demoDonorNoName] =
      .ok (literalSubstringSearch "un"
        [demoDonorUN, demoDonorAB, demoDonorNoName]) ∧
    literalSubstringSearch "un" [demoDonorUN, demoDonorAB, demoDonorNoName] =
      [demoDonorUN] :=
  ⟨basicSearch_literal_matches_substring_contract "un" []
      [demoDonorUN, demoDonorAB, demoDonorNoName] (by decide) (by decide),
   by decide⟩

theorem runBatches_cons_none {outcomes : Nat → Option String}
    {sid : String} {total i : Nat} {ch : List DonorRequest}
    {rest : List (List DonorRequest)} (h : outcomes i = none) :
    runBatches outcomes sid total (ch :: rest) i =
      ((runBatches outcomes sid total rest (i + 1)).1 + 1,
       (runBatches outcomes sid total rest (i + 1)).2.1,
       (runBatches outcomes sid total rest (i + 1)).2.2) := by
  simp [runBatches, h, sendSingleBatch]

theorem runBatches_cons_some {outcomes : Nat → Option String}
    {sid : String} {total i : Nat} {ch : List DonorRequest}
    {rest : List (List DonorRequest)} {err : String}
    (h : outcomes i = some err) :
    runBatches outcomes sid total (ch :: rest) i =
      ((runBatches outcomes sid total rest (i + 1)).1,
       (runBatches outcomes sid total rest (i + 1)).2.1 + 1,
       s!"Batch {i + 1}/{total} failed: {err}" ::
         (runBatches outcomes sid total rest (i + 1)).2.2) := by
  simp [runBatches, h, sendSingleBatch]

theorem runBatches_spec (outcomes : Nat → Option String) (sid : String)
    (total : Nat) : ∀ (chunks : List (List DonorRequest)) (i : Nat),
    (runBatches outcomes sid total chunks i).1 +
      (runBatches outcomes sid total chunks i).2.1 = chunks.length ∧
    (runBatches outcomes sid total chunks i).2.2.length =
      (runBatches outcomes sid total chunks i).2.1 := by
  intro chunks
  induction chunks with
  | nil => intro i; simp [runBatches]
  | cons ch rest ih =>
    intro i
    rcases ih (i + 1) with ⟨hsum, hlen⟩
    cases ho : outcomes i with
    | none =>
      rw [runBatches_cons_none ho]
      simp only [List.length_cons]
      exact ⟨by omega, hlen⟩
    | some err =>
      rw [runBatches_cons_some ho]
      simp only [List.length_cons]
      exact ⟨by omega, by simp [hlen]⟩

/-- C7: the multi-batch submission pipeline accounts for every batch: the
reported successful and failed batch counts always sum to the total batch
count (the number of chunks), overall success holds exactly when no batch
failed, and on any failure the aggregate error message states the number
of failed batches out of the total while `batchErrors` collects exactly
one entry per failed batch. -/
theorem sendMultipleBatches_accounting :
    ∀ (outcomes : Nat → Option String) (sid : String)
      (chunks : List (List DonorRequest)) (s f : Nat),
      (sendMultipleBatches outcomes sid chunks).successfulBatches = some s →
      (sendMultipleBatches outcomes sid chunks).failedBatches = some f →
      s + f = chunks.length ∧
      (sendMultipleBatches outcomes sid chunks).totalBatches =
        some chunks.length ∧
      ((sendMultipleBatches outcomes sid chunks).success = true ↔ f = 0) ∧
      (0 < f →
        (sendMultipleBatches outcomes sid chunks).error =
          some (s!"{f} of {chunks.length} batch(es) failed to send") ∧
        ∃ es, (sendMultipleBatches outcomes sid chunks).batchErrors =
          some es ∧ es.length = f) := by
  intro outcomes sid chunks s f hs hf
  rcases runBatches_spec outcomes sid chunks.length chunks 0 with ⟨hsum, hlen⟩
  simp only [sendMultipleBatches, Option.some.injEq] at hs hf
  refine ⟨by omega, by simp [sendMultipleBatches], ?_, ?_⟩
  · simp only [sendMultipleBatches]
    rw [hf]
    simp [Nat.beq_eq_true_eq]
  · intro hpos
    have hfne : ¬f = 0 := by omega
    constructor
    · simp only [sendMultipleBatches]
      rw [hf]
      simp [hfne]
    · refine ⟨(runBatches outcomes sid chunks.length chunks 0).2.2, ?_, ?_⟩
      · simp only [sendMultipleBatches]
        have : 0 < (runBatches outcomes sid chunks.length chunks 0).2.2.length := by
          omega
        simp [this]
      · omega

/-- Witness for C7: three one-request batches whose second send fails:
the pipeline reports 2 + 1 = 3 batches, total 3, overall failure, the
aggregate message, and a single collected batch error. -/
theorem sendMultipleBatches_accounting_witness :
    2 + 1 =
      ([[demoReqPlain], [demoReqPlain], [demoReqPlain]] :
        List (List DonorRequest)).length ∧
    (sendMultipleBatches demoOutcomes "SID"
      [[demoReqPlain], [demoReqPlain], [demoReqPlain]]).totalBatches =
      some 3 ∧
    (sendMultipleBatches demoOutcomes "SID"
      [[demoReqPlain], [demoReqPlain], [demoReqPlain]]).success = false ∧
    (sendMultipleBatches demoOutcomes "SID"
      [[demoReqPlain], [demoReqPlain], [demoReqPlain]]).error =
      some "1 of 3 batch(es) failed to send" ∧
    (sendMultipleBatches demoOutcomes "SID"
      [[demoReqPlain], [demoReqPlain], [demoReqPlain]]).batchErrors =
      some ["Batch 2/3 failed: boom"] := by
  have h := sendMultipleBatches_accounting demoOutcomes "SID"
    [[demoReqPlain], [demoReqPlain], [demoReqPlain]] 2 1
    (by decide) (by decide)
  refine ⟨h.1, by decide, by decide, ?_, by decide⟩
  have he := (h.2.2.2 (by decide)).1
  simpa using he

theorem splitIntoChunks_nil : splitIntoChunks [] = [] := rfl

theorem drop_chunk_length_le {l : List DonorRequest} {n : Nat}
    (hl : l.length ≤ n + 1) : (l.drop CHUNK_SIZE).length ≤ n := by
  rw [List.length_drop]
  simp only [CHUNK_SIZE]
  omega

theorem splitIntoChunks_cons {l : List DonorRequest} (h : l ≠ []) :
    splitIntoChunks l =
      l.take CHUNK_SIZE :: splitIntoChunks (l.drop CHUNK_SIZE) := by
  have hlen : 1 ≤ l.length := by
    cases l with
    | nil => exact absurd rfl h
    | cons a as => simp
  unfold splitIntoChunks
  have hn : (l.length + CHUNK_SIZE - 1) / CHUNK_SIZE =
      ((l.drop CHUNK_SIZE).length + CHUNK_SIZE - 1) / CHUNK_SIZE + 1 := by
    simp only [List.length_drop, CHUNK_SIZE]
    omega
  rw [hn, List.range_succ_eq_map]
  simp only [List.map_cons, Nat.zero_mul, List.drop_zero, List.map_map]
  congr 1
  refine List.map_congr_left ?_
  intro k hk
  simp only [Function.comp_apply, List.drop_drop]
  rw [Nat.succ_mul, Nat.add_comm (k * CHUNK_SIZE) CHUNK_SIZE]

theorem splitIntoChunks_flatten : ∀ (n : Nat) (l : List DonorRequest),
    l.length ≤ n → (splitIntoChunks l).flatten = l := by
  intro n
  induction n with
  | zero =>
    intro l hl
    rw [List.eq_nil_of_length_eq_zero (Nat.le_zero.mp hl)]
    rfl
  | succ n ih =>
    intro l hl
    by_cases h : l = []
    · rw [h]; rfl
    · have hpos : 0 < l.length := List.length_pos.mpr h
      rw [splitIntoChunks_cons h, List.flatten_cons,
        ih (l.drop CHUNK_SIZE) (drop_chunk_length_le hl)]
      exact List.take_append_drop CHUNK_SIZE l

theorem splitIntoChunks_mem : ∀ (n : Nat) (l c : List DonorRequest),
    l.length ≤ n → c ∈ splitIntoChunks l →
    c ≠ [] ∧ c.length ≤ CHUNK_SIZE := by
  intro n
  induction n with
  | zero =>
    intro l c hl hc
    rw [List.eq_nil_of_length_eq_zero (Nat.le_zero.mp hl),
      splitIntoChunks_nil] at hc
    cases hc
  | succ n ih =>
    intro l c hl hc
    by_cases h : l = []
    · rw [h, splitIntoChunks_nil] at hc
      cases hc
    · have hpos : 0 < l.length := List.length_pos.mpr h
      rw [splitIntoChunks_cons h] at hc
      rcases List.mem_cons.mp hc with hc | hc
      · subst hc
        constructor
        · intro htake
          have hlen0 := congrArg List.length htake
          simp only [List.length_take, List.length_nil] at hlen0
          rcases Nat.min_eq_zero_iff.mp hlen0 with h0 | h0
          · exact absurd h0 (by decide)
          · exact h (List.eq_nil_of_length_eq_zero h0)
        · exact List.length_take_le CHUNK_SIZE l
      · exact ih (l.drop CHUNK_SIZE) c (drop_chunk_length_le hl) hc

theorem splitIntoChunks_dropLast : ∀ (n : Nat) (l c : List DonorRequest),
    l.length ≤ n → c ∈ (splitIntoChunks l).dropLast →
    c.length = CHUNK_SIZE := by
  intro n
  induction n with
  | zero =>
    intro l c hl hc
    rw [List.eq_nil_of_length_eq_zero (Nat.le_zero.mp hl),
      splitIntoChunks_nil] at hc
    cases hc
  | succ n ih =>
    intro l c hl hc
    by_cases h : l = []
    · rw [h, splitIntoChunks_nil] at hc
      cases hc
    · have hpos : 0 < l.length := List.length_pos.mpr h
      rw [splitIntoChunks_cons h] at hc
      by_cases hrest : splitIntoChunks (l.drop CHUNK_SIZE) = []
      · rw [hrest] at hc
        cases hc
      · rw [List.dropLast_cons_of_ne_nil hrest] at hc
        rcases List.mem_cons.mp hc with hc | hc
        · subst hc
          have hd : l.drop CHUNK_SIZE ≠ [] := by
            intro hd
            rw [hd, splitIntoChunks_nil] at hrest
            exact hrest rfl
          have hlt : CHUNK_SIZE < l.length := by
            have := List.length_pos.mpr hd
            simp only [List.length_drop] at this
            omega
          simp only [List.length_take]
          omega
        · exact ih (l.drop CHUNK_SIZE) c (drop_chunk_length_le hl) hc

/-- C9: chunking is faithful: the chunks of a request list concatenate
back to the list in order, no chunk is empty, every chunk holds at most
`CHUNK_SIZE` (15) requests, every chunk except possibly the last holds
exactly 15, the empty list yields no chunks, and `submitRequests` takes
the multi-batch path exactly when the request count exceeds 15. -/
theorem splitIntoChunks_spec :
    splitIntoChunks [] = [] ∧
    (∀ l : List DonorRequest, (splitIntoChunks l).flatten = l) ∧
    (∀ l c : List DonorRequest, c ∈ splitIntoChunks l →
      c ≠ [] ∧ c.length ≤ CHUNK_SIZE) ∧
    (∀ l c : List DonorRequest, c ∈ (splitIntoChunks l).dropLast →
      c.length = CHUNK_SIZE) ∧
    (∀ (outcomes : Nat → Option String) (sid : String)
      (reqs : List DonorRequest),
      (reqs.length ≤ CHUNK_SIZE →
        submitRequests outcomes sid reqs =
          sendSingleBatch (outcomes 0) sid 1 1) ∧
      (CHUNK_SIZE < reqs.length →
        submitRequests outcomes sid reqs =
          sendMultipleBatches outcomes sid (splitIntoChunks reqs))) := by
  refine ⟨rfl,
    fun l => splitIntoChunks_flatten l.length l le_rfl,
    fun l c hc => splitIntoChunks_mem l.length l c le_rfl hc,
    fun l c hc => splitIntoChunks_dropLast l.length l c le_rfl hc,
    fun outcomes sid reqs => ⟨fun hle => ?_, fun hgt => ?_⟩⟩
  · simp [submitRequests, hle]
  · simp [submitRequests, Nat.not_le.mpr hgt]

/-- Witness for C9: a list of 16 requests splits into a full chunk of 15
and a final chunk of 1, the chunks concatenate back to the list, and the
16-request submission takes the multi-batch path. -/
theorem splitIntoChunks_spec_witness :
    (splitIntoChunks demoRequests16).flatten = demoRequests16 ∧
    (demoRequests16.take 15 ≠ [] ∧
      (demoRequests16.take 15).length ≤ CHUNK_SIZE) ∧
    (demoRequests16.take 15).length = CHUNK_SIZE ∧
    submitRequests demoOutcomes "SID" demoRequests16 =
      sendMultipleBatches demoOutcomes "SID"
        (splitIntoChunks demoRequests16) :=
  ⟨splitIntoChunks_spec.2.1 demoRequests16,
   splitIntoChunks_spec.2.2.1 demoRequests16 (demoRequests16.take 15)
     (by decide),
   splitIntoChunks_spec.2.2.2.1 demoRequests16 (demoRequests16.take 15)
     (by decide),
   (splitIntoChunks_spec.2.2.2.2 demoOutcomes "SID" demoRequests16).2
     (by decide)⟩

/-- C10: the CSV section of the e-mail body: an empty new-request list
yields the fixed no-entries message; otherwise the fixed header lines are
followed by one numbered line per request whose CSV payload is
`NAME,TYPE,CEB CODE,CONTRIBUTOR TYPE`, with the name wrapped in double
quotes exactly when it contains a comma (and embedded otherwise
unescaped, double quotes included), `TYPE` equal to `"1"` exactly for the
contributor type `"C01"`, and the code taken from `customCode` when
present (defined, non-empty) and from `suggestedCode` otherwise. -/
theorem formatCsvSnippets_spec :
    formatCsvSnippets [] = noCsvEntriesMessage ∧
    (∀ reqs : List DonorRequest, reqs ≠ [] →
      formatCsvSnippets reqs =
        String.intercalate "\n"
          (csvHeaderLines ++ numberedCsvLines 1 reqs)) ∧
    (∀ (i : Nat) (req : DonorRequest) (rest : List DonorRequest),
      numberedCsvLines i (req :: rest) =
        s!"{i}. {csvLineFor req}" :: numberedCsvLines (i + 1) rest) ∧
    (∀ req : DonorRequest, req.entityName.data.contains ',' = true →
      csvLineFor req =
        "\"" ++ req.entityName ++ "\"" ++ "," ++
          getTypeFromContributorType req.contributorType ++ "," ++
          jsOrString req.customCode req.suggestedCode ++ "," ++
          req.contributorType) ∧
    (∀ req : DonorRequest, req.entityName.data.contains ',' = false →
      csvLineFor req =
        req.entityName ++ "," ++
          getTypeFromContributorType req.contributorType ++ "," ++
          jsOrString req.customCode req.suggestedCode ++ "," ++
          req.contributorType) ∧
    (∀ ct : String, getTypeFromContributorType ct = "1" ↔ ct = "C01") ∧
    (∀ req : DonorRequest, req.customCode = none →
      jsOrString req.customCode req.suggestedCode = req.suggestedCode) ∧
    (∀ (req : DonorRequest) (c : String),
      req.customCode = some c → c ≠ "" →
      jsOrString req.customCode req.suggestedCode = c) ∧
    (∀ req : DonorRequest, req.customCode = some "" →
      jsOrString req.customCode req.suggestedCode = req.suggestedCode) := by
  refine ⟨rfl, ?_, ?_, ?_, ?_, ?_, ?_, ?_, ?_⟩
  · intro reqs h
    cases reqs with
    | nil => exact absurd rfl h
    | cons r rs => rfl
  · intro i req rest
    rfl
  · intro req h
    simp only [csvLineFor, h, if_true]
  · intro req h
    simp only [csvLineFor, h, Bool.false_eq_true, if_false]
  · intro ct
    unfold getTypeFromContributorType
    by_cases h : ct = "C01"
    · simp [h]
    · simp only [beq_iff_eq, if_neg h]
      constructor
      · intro h01
        exact absurd h01 (by decide)
      · intro hc
        exact absurd hc h
  · intro req h
    rw [h]
    rfl
  · intro req c h hc
    rw [h]
    simp [jsOrString, data_isEmpty_eq_false hc]
  · intro req h
    rw [h]
    rfl

/-- Witness for C10: the comma-bearing name is quoted, the plain request
uses its custom code and type flag 0, and a singleton request list emits
the header plus its one numbered line. -/
theorem formatCsvSnippets_spec_witness :
    formatCsvSnippets [] = noCsvEntriesMessage ∧
    csvLineFor demoReqComma = "\"Acme, Inc\",1,AC01,C01" ∧
    csvLineFor demoReqPlain = "Beta,0,BB02,C05" ∧
    jsOrString demoReqPlain.customCode demoReqPlain.suggestedCode =
      "BB02" ∧
    formatCsvSnippets [demoReqPlain] =
      String.intercalate "\n"
        (csvHeaderLines ++ numberedCsvLines 1 [demoReqPlain]) :=
  ⟨formatCsvSnippets_spec.1,
   (formatCsvSnippets_spec.2.2.2.1 demoReqComma (by decide)).trans
     (by decide),
   (formatCsvSnippets_spec.2.2.2.2.1 demoReqPlain (by decide)).trans
     (by decide),
   formatCsvSnippets_spec.2.2.2.2.2.2.2.1 demoReqPlain "BB02" rfl
     (by decide),
   formatCsvSnippets_spec.2.1 [demoReqPlain] (by decide)⟩
